import Mathlib

/-!
Verification of the Supervolt BMS driver (`custom_components/bms_ble/plugins/supervolt_bms.py`)
and the config-flow capability matcher (`custom_components/bms_ble/config_flow.py`),
shallowly embedded in Lean.

Modelling conventions:
* Raw byte buffers (`bytearray` / `bytes`) are `List Nat`, one entry per byte (0..255).
* Python floats are modelled as exact rationals (`ℚ`).  Every property proved here is an
  identity between the expressions the code computes, so the statements are independent of
  the floating-point representation.
* `time.time()` is passed in explicitly as a rational timestamp.
* Python `None` becomes `Option.none`; attributes that only come into existence on first
  assignment (`address`, `command`, ...) are modelled as `Option` fields that start `none`.
* The `try ... except` wrapper around `SupervoltData.parse` means a failing field decode
  aborts the rest of the frame but keeps every mutation already performed; this is modelled
  by running the frame as a list of `Step`s, each of which either updates the record and
  continues, or stops the run (keeping any mutation the failing statement performed before
  the exception was raised).
-/

set_option maxRecDepth 16384

namespace BmsBle

/-- `MAX_TIME_S` from the source: staleness window for `getData`. -/
def MAX_TIME_S : ℚ := 120

/-- The mutable state of one `SupervoltData` object.  `cellV` has 16 slots and `tempC`
4 slots after `__init__`; the remaining fields mirror the Python attributes one for one.
`length2` stands for the Python attribute `length` (renamed so that it does not shadow the
`List.length` notation used in proofs). -/
structure SupervoltData where
  cellV : List (Option ℚ)
  totalV : Option ℚ
  soc : Option ℤ
  workingState : Option ℤ
  alarm : Option ℤ
  chargingA : Option ℚ
  dischargingA : Option ℚ
  loadA : Option ℚ
  tempC : List (Option ℤ)
  completeAh : Option ℚ
  remainingAh : Option ℚ
  designedAh : Option ℚ
  address : Option ℤ
  command : Option ℤ
  version : Option ℤ
  length2 : Option ℤ
  balanceState : Option ℤ
  dischargeNumber : Option ℤ
  chargeNumber : Option ℤ
  lastUpdatetime : ℚ
  deriving DecidableEq

/-- `SupervoltData.__init__`: 16 empty cell-voltage slots, 4 empty temperature slots,
everything else unset.  `t0` is the module-load value of `time.time()` that the
class-level `lastUpdatetime` attribute carries until the first successful parse. -/
def mkSupervoltData (t0 : ℚ) : SupervoltData where
  cellV := List.replicate 16 none
  totalV := none
  soc := none
  workingState := none
  alarm := none
  chargingA := none
  dischargingA := none
  loadA := none
  tempC := List.replicate 4 none
  completeAh := none
  remainingAh := none
  designedAh := none
  address := none
  command := none
  version := none
  length2 := none
  balanceState := none
  dischargeNumber := none
  chargeNumber := none
  lastUpdatetime := t0

/-! ### Python `int(bytes.decode(), 16)` -/

/-- ASCII hexadecimal digit? -/
def isHexDigit (b : Nat) : Bool :=
  (48 ≤ b && b ≤ 57) || (65 ≤ b && b ≤ 70) || (97 ≤ b && b ≤ 102)

/-- Value of an ASCII hexadecimal digit. -/
def hexVal (b : Nat) : Nat :=
  if b ≤ 57 then b - 48 else if b ≤ 70 then b - 55 else b - 87

/-- ASCII whitespace stripped by Python `int()`. -/
def isSpaceByte (b : Nat) : Bool :=
  b = 32 || (9 ≤ b && b ≤ 13)

/-- Digit run of a Python hexadecimal literal: nonempty, hex digits with single
underscores allowed between digits.  `seenDigit` records whether a digit has been read,
`lastU` whether the previous character was an underscore. -/
def hexCore : List Nat → Nat → Bool → Bool → Option Nat
  | [], acc, seenDigit, lastU => if seenDigit && !lastU then some acc else none
  | b :: rest, acc, seenDigit, lastU =>
    if b = 95 then
      if seenDigit && !lastU then hexCore rest acc seenDigit true else none
    else if isHexDigit b then hexCore rest (16 * acc + hexVal b) true false
    else none

/-- Magnitude part of a Python hexadecimal literal: optional `0x`/`0X` prefix (which may
be followed by one underscore), then the digit run. -/
def hexMagnitude : List Nat → Option Nat
  | 48 :: x :: rest =>
    if x = 120 || x = 88 then
      match rest with
      | 95 :: rest2 => hexCore rest2 0 false false
      | _ => hexCore rest 0 false false
    else hexCore (48 :: x :: rest) 0 false false
  | l => hexCore l 0 false false

/-- `int(bs.decode(), 16)` for an ASCII byte region: strip surrounding whitespace, parse an
optional sign, then the hexadecimal magnitude.  Bytes ≥ 128 are treated as a failure
(`bytes.decode()` / `int()` reject them for the frames at hand); the failure is reported as
`none` because the surrounding Python `try/except` catches the exception. -/
def pyIntHex (bs : List Nat) : Option ℤ :=
  if bs.any (fun b => 128 ≤ b) then none
  else
    let s := ((bs.dropWhile isSpaceByte).reverse.dropWhile isSpaceByte).reverse
    match s with
    | 43 :: rest => (hexMagnitude rest).map (fun n => (n : ℤ))
    | 45 :: rest => (hexMagnitude rest).map (fun n => -(n : ℤ))
    | _ => (hexMagnitude s).map (fun n => (n : ℤ))

/-- Python slice `data[start : start + len]` (clamping at the end of the buffer). -/
def slice (data : List Nat) (start len : Nat) : List Nat :=
  (data.drop start).take len

/-! ### The frame decoder as a sequence of statements

Each fallible statement of `SupervoltData.parse` becomes one `Step`.  A step returns the
updated record and `true`, or — when the statement raises (malformed hex text, index out
of range, `None` arithmetic) — the record as mutated so far and `false`, after which the
surrounding `try/except` abandons the rest of the frame. -/

def Step : Type := SupervoltData → SupervoltData × Bool

/-- Run statements in order until one fails. -/
def runSteps : List Step → SupervoltData → SupervoltData × Bool
  | [], st => (st, true)
  | s :: rest, st => if (s st).2 then runSteps rest (s st).1 else s st

/-- A statement `self.f = int(data[start:start+len].decode(), 16)`-style field write. -/
def fieldStep (data : List Nat) (start len : Nat)
    (g : SupervoltData → ℤ → SupervoltData) : Step :=
  fun st =>
    match pyIntHex (slice data start len) with
    | none => (st, false)
    | some v => (g st v, true)

/-- Shared layout of the first four header fields of both frame kinds:
address(1,2), command(3,2), version(5,2), length(7,4). -/
def headerSteps (data : List Nat) : List Step :=
  [ fieldStep data 1 2 (fun st v => { st with address := some v }),
    fieldStep data 3 2 (fun st v => { st with command := some v }),
    fieldStep data 5 2 (fun st v => { st with version := some v }),
    fieldStep data 7 4 (fun st v => { st with length2 := some v }) ]

/-- `self.totalV = 0` (runs before the cell loop, unconditionally). -/
def setTotalV0Step : Step := fun st => ({ st with totalV := some 0 }, true)

/-- One iteration of the cell-voltage loop (`for i in range(0, 11)`), guarded by
`if self.cellV:`.  Python order: decode the hex text (failure aborts with no mutation),
assign `cellV[i]` (an out-of-range index aborts after the decode), then
`totalV += cellV[i]` (a `None` `totalV` aborts after `cellV[i]` was written). -/
def cellStep (data : List Nat) (i : Nat) : Step := fun st =>
  if st.cellV.isEmpty then (st, true)
  else
    match pyIntHex (slice data (25 + 4 * i) 4) with
    | none => (st, false)
    | some v =>
      if i < st.cellV.length then
        let st1 := { st with cellV := st.cellV.set i (some ((v : ℚ) / 1000)) }
        match st1.totalV with
        | none => (st1, false)
        | some tv => ({ st1 with totalV := some (tv + (v : ℚ) / 1000) }, true)
      else (st, false)

/-- Charging current: decode at (89,4), divide by 100, then clamp to 0 when > 500. -/
def chargingStep (data : List Nat) : Step :=
  fieldStep data 89 4 (fun st v =>
    let c : ℚ := (v : ℚ) / 100
    let c2 : ℚ := if c > 500 then 0 else c
    { st with chargingA := some c2 })

/-- Discharging current: decode at (93,4), divide by 100, then clamp to 0 when > 500. -/
def dischargingStep (data : List Nat) : Step :=
  fieldStep data 93 4 (fun st v =>
    let c : ℚ := (v : ℚ) / 100
    let c2 : ℚ := if c > 500 then 0 else c
    { st with dischargingA := some c2 })

/-- `self.loadA = -self.chargingA + self.dischargingA` (a `None` operand would raise). -/
def loadAStep : Step := fun st =>
  match st.chargingA, st.dischargingA with
  | some c, some d => ({ st with loadA := some (-c + d) }, true)
  | _, _ => (st, false)

/-- One iteration of the temperature loop (`for i in range(0, 4)`), guarded by
`if self.tempC:`; value = decoded hex − 40. -/
def tempStep (data : List Nat) (i : Nat) : Step := fun st =>
  if st.tempC.isEmpty then (st, true)
  else
    match pyIntHex (slice data (97 + 2 * i) 2) with
    | none => (st, false)
    | some v =>
      if i < st.tempC.length then
        ({ st with tempC := st.tempC.set i (some (v - 40)) }, true)
      else (st, false)

/-- Fields of the 128-byte frame after the temperatures: workingState(105,4), alarm(109,2),
balanceState(111,4), dischargeNumber(115,4), chargeNumber(119,4), soc(123,2). -/
def tailSteps (data : List Nat) : List Step :=
  [ tempStep data 0, tempStep data 1, tempStep data 2, tempStep data 3,
    fieldStep data 105 4 (fun st v => { st with workingState := some v }),
    fieldStep data 109 2 (fun st v => { st with alarm := some v }),
    fieldStep data 111 4 (fun st v => { st with balanceState := some v }),
    fieldStep data 115 4 (fun st v => { st with dischargeNumber := some v }),
    fieldStep data 119 4 (fun st v => { st with chargeNumber := some v }),
    fieldStep data 123 2 (fun st v => { st with soc := some v }) ]

/-- Cell-voltage loop of the realtime frame, cells 0..10. -/
def cellSteps (data : List Nat) : List Step :=
  (List.range 11).map (cellStep data)

/-- All statements of the 128-byte "realtime" branch of `parse`, in program order.
(The date region at (11,14) and the voltage-array region at (25,64) are only sliced,
never decoded, so they contribute no step.) -/
def steps128 (data : List Nat) : List Step :=
  headerSteps data ++ setTotalV0Step :: cellSteps data
    ++ chargingStep data :: dischargingStep data :: loadAStep :: tailSteps data

/-- All statements of the 30-byte "capacity" branch of `parse`, in program order.
(The reserved region at (11,4) is only sliced, never decoded.) -/
def steps30 (data : List Nat) : List Step :=
  headerSteps data ++
  [ fieldStep data 15 4 (fun st v => { st with remainingAh := some ((v : ℚ) / 10) }),
    fieldStep data 19 4 (fun st v => { st with completeAh := some ((v : ℚ) / 10) }),
    fieldStep data 23 4 (fun st v => { st with designedAh := some ((v : ℚ) / 10) }) ]

/-- Statement list selected by the length dispatch of `parse`. -/
def parseSteps (data : List Nat) : List Step :=
  if data.length = 128 then steps128 data else steps30 data

/-- `SupervoltData.parse(data)` at time `now`: empty buffers are ignored (`if data:`),
recognized lengths run their statement list and bump `lastUpdatetime` only when every
statement succeeded, any other length is ignored with a warning log.  The surrounding
`try/except` means the function itself never raises. -/
def parse (r : SupervoltData) (data : List Nat) (now : ℚ) : SupervoltData :=
  if data.isEmpty then r
  else if data.length = 128 ∨ data.length = 30 then
    let p := runSteps (parseSteps data) r
    if p.2 then { p.1 with lastUpdatetime := now } else p.1
  else r

/-! ### Snapshot (`getData`) -/

/-- Python truthiness of an optional number: `None` and `0` are falsy. -/
def pyTruthy (x : Option ℚ) : Bool :=
  match x with
  | none => false
  | some q => q ≠ 0

/-- Modelled from the spec: the dictionary `getData` builds uses string keys from
`const.py`, which is not part of the sources at hand; per the spec the snapshot carries
total voltage, a delta-voltage field mirroring total voltage, pack current,
state-of-charge, remaining capacity, fixed cell count 4, the first temperature reading,
the first four cell-voltage slots, and a derived list of just those cell-voltage values
(the keys of the four per-cell entries are the only ones sharing the cell-voltage key
prefix, so the list comprehension collects exactly them, in insertion order).
The dictionary is modelled as this structure, one field per key; `temperature` is
doubly optional because its key is only inserted when `tempC` is truthy. -/
structure BMSsample where
  voltage : Option ℚ
  delta_voltage : Option ℚ
  current : Option ℚ
  battery_level : Option ℤ
  cycle_cap : Option ℚ
  cell_count : ℤ
  temperature : Option (Option ℤ)
  cell1 : Option ℚ
  cell2 : Option ℚ
  cell3 : Option ℚ
  cell4 : Option ℚ
  cell_voltages : List (Option ℚ)
  deriving DecidableEq

/-- `SupervoltData.getData()` at time `now`: `None` when the data is stale
(`now − lastUpdatetime > MAX_TIME_S`) or `totalV` is falsy; otherwise the snapshot
dictionary.  (`cellV` has at least 4 slots in every reachable state, so the
`self.cellV[i]` reads cannot raise; they are modelled with `getD none` on the
out-of-range fringe.) -/
def getData (r : SupervoltData) (now : ℚ) : Option BMSsample :=
  if now - r.lastUpdatetime > MAX_TIME_S ∨ ¬ pyTruthy r.totalV then none
  else
    some
      { voltage := r.totalV
        delta_voltage := r.totalV
        current := r.loadA
        battery_level := r.soc
        cycle_cap := r.remainingAh
        cell_count := 4
        temperature := if r.tempC.isEmpty then none else some (r.tempC.headI)
        cell1 := (r.cellV.get? 0).getD none
        cell2 := (r.cellV.get? 1).getD none
        cell3 := (r.cellV.get? 2).getD none
        cell4 := (r.cellV.get? 3).getD none
        cell_voltages := [(r.cellV.get? 0).getD none, (r.cellV.get? 1).getD none,
                          (r.cellV.get? 2).getD none, (r.cellV.get? 3).getD none] }

/-! ### Reset (`resetValues`) -/

/-- Effect of `for i in range(0, n): l[i] = None` on the prefix it reaches. -/
def setPrefixNone {γ : Type} : Nat → List (Option γ) → List (Option γ)
  | 0, l => l
  | _, [] => []
  | n + 1, _ :: rest => none :: setPrefixNone n rest

/-- `SupervoltData.resetValues()`.  The whole body sits in a `try/except`, so an
`IndexError` from the `cellV` loop (fewer than 11 slots) or the `tempC` loop (fewer than
4 slots) abandons the remaining assignments while keeping the ones already made; both
loops are guarded by a truthiness test on the list. -/
def resetValues (r : SupervoltData) : SupervoltData :=
  let r1 := { r with alarm := none, balanceState := none }
  let r2 := if r1.cellV.isEmpty then r1 else { r1 with cellV := setPrefixNone 11 r1.cellV }
  if ¬ r1.cellV.isEmpty ∧ r1.cellV.length < 11 then r2
  else
    let r3 := { r2 with chargeNumber := none, chargingA := none, completeAh := none,
                        designedAh := none, dischargeNumber := none, dischargingA := none,
                        loadA := none, remainingAh := none, soc := none }
    let r4 := if r3.tempC.isEmpty then r3 else { r3 with tempC := setPrefixNone 4 r3.tempC }
    if ¬ r3.tempC.isEmpty ∧ r3.tempC.length < 4 then r4
    else { r4 with totalV := none, version := none, workingState := none }

/-! ### The driver (`class BMS`) -/

/-- The class-level registry `BMS.supervoltDatas = {}`, modelled as an association list
from device name to record.  It is created empty at class-definition time. -/
def supervoltDatas0 : List (String × SupervoltData) := []

/-- `BMS.__init__`: the instance record is `self.supervoltDatas.get(name, SupervoltData())`.
The method only reads the registry — `dict.get` never inserts — so the (unchanged)
registry is returned alongside the record the instance is bound to.  `t0` is the
timestamp a freshly constructed `SupervoltData` carries. -/
def bmsInit (datas : List (String × SupervoltData)) (name : String) (t0 : ℚ) :
    List (String × SupervoltData) × SupervoltData :=
  (datas, (datas.lookup name).getD (mkSupervoltData t0))

/-- One poll's interaction with the outside world, as `async_update` observes it:
whether `_connect` succeeds, whether each `write_gatt_char` succeeds, the notification
payload released by each `wait_for` (`none` = the 10-unit timeout fired first), the
`time.time()` at each in-callback `parse`, and the `time.time()` at the final
`getData`. -/
structure PollEnv where
  connectOk : Bool
  write1Ok : Bool
  notif1 : Option (List Nat)
  t1 : ℚ
  write2Ok : Bool
  notif2 : Option (List Nat)
  t2 : ℚ
  tEnd : ℚ
  deriving DecidableEq

/-- Outcome of `BMS.async_update`: the record state afterwards, whether `disconnect()`
was reached, and the value returned — `none` models the `assert data is not None`
raising `AssertionError` out of the method (the broad `except:` only covers the
exchange, not the assert). -/
structure PollResult where
  record : SupervoltData
  disconnectAttempted : Bool
  result : Option BMSsample
  deriving DecidableEq

/-- `BMS.async_update` over record `r` in environment `env`.  The `try` block runs
connect → reset → write 1 → wait 1 (parse on notification) → write 2 → wait 2 (parse) →
disconnect; any failure or timeout jumps straight to the `except:` handler, which only
logs — in particular the `disconnect()` call is skipped whenever an earlier step fails.
After the `try/except`, `getData` is read and `assert data is not None` raises when it
is `None`; on success the sample is returned (`calc_values` of the base class only adds
derived keys and is outside the sources at hand). -/
def async_update (r : SupervoltData) (env : PollEnv) : PollResult :=
  let exchange : SupervoltData × Bool :=
    if ¬ env.connectOk then (r, false)
    else
      let rA := resetValues r
      if ¬ env.write1Ok then (rA, false)
      else
        match env.notif1 with
        | none => (rA, false)
        | some f1 =>
          let rB := parse rA f1 env.t1
          if ¬ env.write2Ok then (rB, false)
          else
            match env.notif2 with
            | none => (rB, false)
            | some f2 => (parse rB f2 env.t2, true)
  { record := exchange.1
    disconnectAttempted := exchange.2
    result := getData exchange.1 env.tEnd }

/-! ### The capability matcher (`ConfigFlow._device_supported`) -/

/-- `ConfigFlow._device_supported`: iterate the `BmsTypes` enumeration in declaration
order and return the first member whose class-level `supported(discovery_info)` predicate
accepts the advertisement, else `None`.  The enumeration and the per-type predicates live
in other modules, so they are parameters: `types` is the enumeration in its declaration
order and `sup t info` the static predicate of type `t`. -/
def device_supported {α β : Type} (types : List α) (sup : α → β → Bool) (info : β) :
    Option α :=
  types.find? (fun t => sup t info)

/-! ### Concrete inputs used to exercise the definitions -/

/-- A well-formed 128-byte realtime frame: a `:` start byte followed by 127 ASCII `0`
bytes, so every hex field decodes to 0. -/
def zeroFrame128 : List Nat := 58 :: List.replicate 127 48

/-- A well-formed 128-byte realtime frame whose charging-current field (bytes 89..92)
holds the hex text `C350` (50000, i.e. exactly 500.00 A); all other fields are `0`. -/
def chargeFrame128 : List Nat :=
  58 :: (List.replicate 88 48 ++ [67, 51, 53, 48] ++ List.replicate 35 48)

/-- A well-formed 30-byte capacity frame whose remaining-capacity field (bytes 15..18)
holds the hex text `000A` (10, i.e. 1.0 Ah); all other fields are `0`. -/
def capFrame30 : List Nat :=
  58 :: (List.replicate 14 48 ++ [48, 48, 48, 65] ++ List.replicate 11 48)

/-- A 30-byte capacity frame whose remaining-capacity field starts with the non-hex
byte `G`, so decoding fails there after the header fields were applied. -/
def badFrame30 : List Nat :=
  58 :: (List.replicate 14 48 ++ [71, 48, 48, 48] ++ List.replicate 11 48)

/-- A poll in which connecting and writing succeed but no notification ever arrives
within the bounded wait. -/
def timeoutEnv : PollEnv :=
  { connectOk := true, write1Ok := true, notif1 := none, t1 := 0,
    write2Ok := true, notif2 := none, t2 := 0, tEnd := 0 }

/-- A record state with `totalV` set to exactly `0` and a fresh timestamp; other
telemetry fields populated. -/
def zeroVoltRecord : SupervoltData :=
  { mkSupervoltData 0 with
      totalV := some 0, soc := some 50, loadA := some 1, remainingAh := some 2 }

/-- A populated record state used to instantiate universally quantified theorems. -/
def liveRecord : SupervoltData :=
  { mkSupervoltData 0 with
      totalV := some 13, soc := some 90, loadA := some 3, remainingAh := some 7 }

/-! ## Generic lemmas about statement runs -/

theorem runSteps_nil (st : SupervoltData) : runSteps [] st = (st, true) := rfl

theorem runSteps_cons (s : Step) (l : List Step) (st : SupervoltData) :
    runSteps (s :: l) st = if (s st).2 then runSteps l (s st).1 else s st := rfl

theorem runSteps_append (l1 l2 : List Step) (st : SupervoltData) :
    runSteps (l1 ++ l2) st =
      if (runSteps l1 st).2 then runSteps l2 ((runSteps l1 st).1) else runSteps l1 st := by
  induction l1 generalizing st with
  | nil => simp [runSteps]
  | cons s rest ih =>
    by_cases hb : (s st).2 = true
    · simp only [List.cons_append, runSteps_cons, if_pos hb, ih]
    · have hb' : (s st).2 = false := by simpa using hb
      simp [List.cons_append, runSteps_cons, hb']

/-- A projection preserved by every statement of a list is preserved by the run,
whether or not the run succeeds. -/
theorem runSteps_preserve {γ : Type} (f : SupervoltData → γ) (l : List Step)
    (h : ∀ s ∈ l, ∀ x, f ((s x).1) = f x) (st : SupervoltData) :
    f ((runSteps l st).1) = f st := by
  induction l generalizing st with
  | nil => rfl
  | cons s rest ih =>
    rw [runSteps_cons]
    by_cases hb : (s st).2 = true
    · rw [if_pos hb, ih (fun t ht x => h t (List.mem_cons_of_mem _ ht) x),
        h s (List.mem_cons_self _ _)]
    · rw [if_neg hb]
      exact h s (List.mem_cons_self _ _) st

/-- Every run either succeeds wholly, or there is a first failing statement: the
statements before it all succeed, and the final state is the failing statement's
(partial) effect on the state reached by that successful prefix. -/
theorem runSteps_firstFail (l : List Step) (st : SupervoltData) :
    (runSteps l st).2 = true ∨
      ∃ k, ∃ hk : k < l.length,
        (runSteps (l.take k) st).2 = true ∧
        ((l.get ⟨k, hk⟩) ((runSteps (l.take k) st).1)).2 = false ∧
        runSteps l st = (((l.get ⟨k, hk⟩) ((runSteps (l.take k) st).1)).1, false) := by
  induction l generalizing st with
  | nil => left; rfl
  | cons s rest ih =>
    by_cases hb : (s st).2 = true
    · rcases ih ((s st).1) with hok | ⟨k, hk, h1, h2, h3⟩
      · left
        rw [runSteps_cons, if_pos hb]
        exact hok
      · right
        refine ⟨k + 1, Nat.succ_lt_succ hk, ?_, ?_, ?_⟩
        · rw [List.take_succ_cons, runSteps_cons, if_pos hb]
          exact h1
        · rw [List.take_succ_cons, runSteps_cons, if_pos hb, List.get_cons_succ]
          exact h2
        · rw [runSteps_cons, if_pos hb, List.take_succ_cons, runSteps_cons, if_pos hb,
            List.get_cons_succ]
          exact h3
    · right
      have hb' : (s st).2 = false := by simpa using hb
      refine ⟨0, Nat.succ_pos _, rfl, ?_, ?_⟩
      · simp only [List.take_zero, runSteps_nil, List.get_cons_zero]
        exact hb'
      · rw [runSteps_cons, if_neg hb]
        simp only [List.take_zero, runSteps_nil, List.get_cons_zero]
        rw [← hb']
        exact (Prod.mk.eta).symm

theorem runSteps_cons_parts (s : Step) (l : List Step) (st : SupervoltData)
    (h : (runSteps (s :: l) st).2 = true) :
    (s st).2 = true ∧ runSteps (s :: l) st = runSteps l ((s st).1) := by
  have hb : (s st).2 = true := by
    by_contra hb
    rw [runSteps_cons, if_neg hb] at h
    exact hb h
  exact ⟨hb, by rw [runSteps_cons, if_pos hb]⟩

theorem runSteps_append_parts (l1 l2 : List Step) (st : SupervoltData)
    (h : (runSteps (l1 ++ l2) st).2 = true) :
    (runSteps l1 st).2 = true ∧
      runSteps (l1 ++ l2) st = runSteps l2 ((runSteps l1 st).1) := by
  have hb : (runSteps l1 st).2 = true := by
    by_contra hb
    rw [runSteps_append, if_neg hb] at h
    exact hb h
  exact ⟨hb, by rw [runSteps_append, if_pos hb]⟩

/-! ### Shape of the individual statements

Each statement either leaves the record unchanged (when it fails before its assignment)
or performs exactly its own field update; every projection it does not write is
therefore preserved. -/

theorem fieldStep_fst_eq (data : List Nat) (a b : Nat)
    (g : SupervoltData → ℤ → SupervoltData) (st : SupervoltData) :
    (fieldStep data a b g st).1 = st ∨
      ∃ v, pyIntHex (slice data a b) = some v ∧ (fieldStep data a b g st).1 = g st v := by
  unfold fieldStep
  rcases h : pyIntHex (slice data a b) with _ | v
  · left; rfl
  · right; exact ⟨v, rfl, rfl⟩

theorem cellStep_fst_eq (data : List Nat) (i : Nat) (st : SupervoltData) :
    (cellStep data i st).1 = st ∨
      ∃ l q, (cellStep data i st).1 = { st with cellV := l, totalV := q } := by
  unfold cellStep
  split
  · left; rfl
  · split
    · left; rfl
    · split
      · dsimp only
        split
        · right; exact ⟨_, _, rfl⟩
        · right; exact ⟨_, _, rfl⟩
      · left; rfl

theorem tempStep_fst_eq (data : List Nat) (i : Nat) (st : SupervoltData) :
    (tempStep data i st).1 = st ∨
      ∃ l, (tempStep data i st).1 = { st with tempC := l } := by
  unfold tempStep
  split
  · left; rfl
  · split
    · left; rfl
    · split
      · right; exact ⟨_, rfl⟩
      · left; rfl

theorem loadAStep_fst_eq (st : SupervoltData) :
    (loadAStep st).1 = st ∨ ∃ q, (loadAStep st).1 = { st with loadA := q } := by
  unfold loadAStep
  split
  · right; exact ⟨_, rfl⟩
  · left; rfl

theorem chargingStep_fst_eq (data : List Nat) (st : SupervoltData) :
    (chargingStep data st).1 = st ∨
      ∃ q, (chargingStep data st).1 = { st with chargingA := q } := by
  rcases fieldStep_fst_eq data 89 4
      (fun st v =>
        let c : ℚ := (v : ℚ) / 100
        let c2 : ℚ := if c > 500 then 0 else c
        { st with chargingA := some c2 }) st with h | ⟨v, _, h⟩
  · left; exact h
  · right; exact ⟨_, h⟩

theorem dischargingStep_fst_eq (data : List Nat) (st : SupervoltData) :
    (dischargingStep data st).1 = st ∨
      ∃ q, (dischargingStep data st).1 = { st with dischargingA := q } := by
  rcases fieldStep_fst_eq data 93 4
      (fun st v =>
        let c : ℚ := (v : ℚ) / 100
        let c2 : ℚ := if c > 500 then 0 else c
        { st with dischargingA := some c2 }) st with h | ⟨v, _, h⟩
  · left; exact h
  · right; exact ⟨_, h⟩

/-! ### Projection preservation, per step -/

theorem fieldStep_preserve {γ : Type} (f : SupervoltData → γ) (data : List Nat) (a b : Nat)
    (g : SupervoltData → ℤ → SupervoltData) (hg : ∀ st v, f (g st v) = f st)
    (st : SupervoltData) : f ((fieldStep data a b g st).1) = f st := by
  rcases fieldStep_fst_eq data a b g st with h | ⟨v, _, h⟩
  · rw [h]
  · rw [h, hg]

theorem cellStep_preserve {γ : Type} (f : SupervoltData → γ) (data : List Nat) (i : Nat)
    (hf : ∀ st l q, f { st with cellV := l, totalV := q } = f st) (st : SupervoltData) :
    f ((cellStep data i st).1) = f st := by
  rcases cellStep_fst_eq data i st with h | ⟨l, q, h⟩
  · rw [h]
  · rw [h, hf]

theorem tempStep_preserve {γ : Type} (f : SupervoltData → γ) (data : List Nat) (i : Nat)
    (hf : ∀ st l, f { st with tempC := l } = f st) (st : SupervoltData) :
    f ((tempStep data i st).1) = f st := by
  rcases tempStep_fst_eq data i st with h | ⟨l, h⟩
  · rw [h]
  · rw [h, hf]

theorem loadAStep_preserve {γ : Type} (f : SupervoltData → γ)
    (hf : ∀ st q, f { st with loadA := q } = f st) (st : SupervoltData) :
    f ((loadAStep st).1) = f st := by
  rcases loadAStep_fst_eq st with h | ⟨q, h⟩
  · rw [h]
  · rw [h, hf]

theorem chargingStep_preserve {γ : Type} (f : SupervoltData → γ) (data : List Nat)
    (hf : ∀ st q, f { st with chargingA := q } = f st) (st : SupervoltData) :
    f ((chargingStep data st).1) = f st := by
  rcases chargingStep_fst_eq data st with h | ⟨q, h⟩
  · rw [h]
  · rw [h, hf]

theorem dischargingStep_preserve {γ : Type} (f : SupervoltData → γ) (data : List Nat)
    (hf : ∀ st q, f { st with dischargingA := q } = f st) (st : SupervoltData) :
    f ((dischargingStep data st).1) = f st := by
  rcases dischargingStep_fst_eq data st with h | ⟨q, h⟩
  · rw [h]
  · rw [h, hf]

/-! ### Projection preservation over the statement lists -/

/-- No statement of the realtime frame touches `lastUpdatetime`; only the final
successful-parse bookkeeping does. -/
theorem steps128_preserve_time (data : List Nat) :
    ∀ s ∈ steps128 data, ∀ x, ((s x).1).lastUpdatetime = x.lastUpdatetime := by
  intro s hs x
  simp only [steps128, headerSteps, cellSteps, tailSteps, List.mem_append, List.mem_cons,
    List.mem_map, List.mem_range, List.not_mem_nil, or_false] at hs
  rcases hs with ((rfl | rfl | rfl | rfl) | rfl | ⟨i, hi, rfl⟩) | rfl | rfl | rfl | rfl |
    rfl | rfl | rfl | rfl | rfl | rfl | rfl | rfl | rfl
  all_goals first
    | (refine fieldStep_preserve (fun st => st.lastUpdatetime) _ _ _ _ ?_ x; intro st v; rfl)
    | (refine cellStep_preserve (fun st => st.lastUpdatetime) _ _ ?_ x; intro st l q; rfl)
    | (refine tempStep_preserve (fun st => st.lastUpdatetime) _ _ ?_ x; intro st l; rfl)
    | (refine loadAStep_preserve (fun st => st.lastUpdatetime) ?_ x; intro st q; rfl)
    | (refine chargingStep_preserve (fun st => st.lastUpdatetime) _ ?_ x; intro st q; rfl)
    | (refine dischargingStep_preserve (fun st => st.lastUpdatetime) _ ?_ x; intro st q; rfl)
    | rfl

/-- No statement of the capacity frame touches `lastUpdatetime` either. -/
theorem steps30_preserve_time (data : List Nat) :
    ∀ s ∈ steps30 data, ∀ x, ((s x).1).lastUpdatetime = x.lastUpdatetime := by
  intro s hs x
  simp only [steps30, headerSteps, List.mem_append, List.mem_cons,
    List.not_mem_nil, or_false] at hs
  rcases hs with (rfl | rfl | rfl | rfl) | rfl | rfl | rfl
  all_goals
    refine fieldStep_preserve (fun st => st.lastUpdatetime) _ _ _ _ ?_ x <;> intro st v <;> rfl

/-- The statements after the cell loop never touch `totalV`. -/
theorem afterCells_preserve_totalV (data : List Nat) :
    ∀ s ∈ chargingStep data :: dischargingStep data :: loadAStep :: tailSteps data,
      ∀ x, ((s x).1).totalV = x.totalV := by
  intro s hs x
  simp only [tailSteps, List.mem_cons, List.not_mem_nil, or_false] at hs
  rcases hs with rfl | rfl | rfl | rfl | rfl | rfl | rfl | rfl | rfl | rfl | rfl | rfl | rfl
  all_goals first
    | (refine fieldStep_preserve (fun st => st.totalV) _ _ _ _ ?_ x; intro st v; rfl)
    | (refine tempStep_preserve (fun st => st.totalV) _ _ ?_ x; intro st l; rfl)
    | (refine loadAStep_preserve (fun st => st.totalV) ?_ x; intro st q; rfl)
    | (refine chargingStep_preserve (fun st => st.totalV) _ ?_ x; intro st q; rfl)
    | (refine dischargingStep_preserve (fun st => st.totalV) _ ?_ x; intro st q; rfl)

/-- The statements after `loadA` (temperatures and tail fields) never touch the three
current fields. -/
theorem tailSteps_preserve_currents (data : List Nat) :
    ∀ s ∈ tailSteps data, ∀ x,
      (((s x).1).chargingA, ((s x).1).dischargingA, ((s x).1).loadA)
        = (x.chargingA, x.dischargingA, x.loadA) := by
  intro s hs x
  simp only [tailSteps, List.mem_cons, List.not_mem_nil, or_false] at hs
  rcases hs with rfl | rfl | rfl | rfl | rfl | rfl | rfl | rfl | rfl | rfl
  all_goals first
    | (refine fieldStep_preserve
        (fun st => (st.chargingA, st.dischargingA, st.loadA)) _ _ _ _ ?_ x; intro st v; rfl)
    | (refine tempStep_preserve
        (fun st => (st.chargingA, st.dischargingA, st.loadA)) _ _ ?_ x; intro st l; rfl)

/-- The shared header statements never touch `cellV`. -/
theorem headerSteps_preserve_cellV (data : List Nat) :
    ∀ s ∈ headerSteps data, ∀ x, ((s x).1).cellV = x.cellV := by
  intro s hs x
  simp only [headerSteps, List.mem_cons, List.not_mem_nil, or_false] at hs
  rcases hs with rfl | rfl | rfl | rfl
  all_goals
    refine fieldStep_preserve (fun st => st.cellV) _ _ _ _ ?_ x <;> intro st v <;> rfl

/-- `steps128`, re-associated so that everything up to and including the cell loop forms
one prefix. -/
theorem steps128_eq_parts (data : List Nat) :
    steps128 data = (headerSteps data ++ setTotalV0Step :: cellSteps data)
      ++ chargingStep data :: dischargingStep data :: loadAStep :: tailSteps data := by
  simp [steps128, List.append_assoc]

/-- For a recognized length, `parse` runs the statement list and bumps the timestamp
only on full success. -/
theorem parse_eq_of_length (r : SupervoltData) (data : List Nat) (now : ℚ)
    (h : data.length = 128 ∨ data.length = 30) :
    parse r data now =
      (if (runSteps (parseSteps data) r).2 then
        { (runSteps (parseSteps data) r).1 with lastUpdatetime := now }
       else (runSteps (parseSteps data) r).1) := by
  have hne : data.isEmpty = false := by
    cases data with
    | nil => rcases h with h | h <;> simp at h
    | cons a l => rfl
  unfold parse
  rw [if_neg (by simp [hne]), if_pos h]

/-- No statement of either recognized frame touches `lastUpdatetime`. -/
theorem parseSteps_preserve_time (data : List Nat) :
    ∀ s ∈ parseSteps data, ∀ x, ((s x).1).lastUpdatetime = x.lastUpdatetime := by
  intro s hs x
  unfold parseSteps at hs
  by_cases h : data.length = 128
  · rw [if_pos h] at hs; exact steps128_preserve_time data s hs x
  · rw [if_neg h] at hs; exact steps30_preserve_time data s hs x

/-- Claim C7: on a 128- or 30-byte buffer, decoding is best-effort and aborts the frame
only.  Either every statement succeeds (and the timestamp is set to `now`), or there is
a first failing statement: all statements before it succeeded and remain applied, the
final record is exactly the failing statement's (partial) effect on the state the
successful prefix reached, no exception escapes (`parse` is a total function), and
`lastUpdatetime` keeps its old value. -/
theorem parse_aborts_frame_only (r : SupervoltData) (data : List Nat) (now : ℚ)
    (h : data.length = 128 ∨ data.length = 30) :
    ((runSteps (parseSteps data) r).2 = true ∧
      parse r data now = { (runSteps (parseSteps data) r).1 with lastUpdatetime := now }) ∨
    (∃ k, ∃ hk : k < (parseSteps data).length,
      (runSteps ((parseSteps data).take k) r).2 = true ∧
      (((parseSteps data).get ⟨k, hk⟩) ((runSteps ((parseSteps data).take k) r).1)).2
        = false ∧
      parse r data now
        = (((parseSteps data).get ⟨k, hk⟩) ((runSteps ((parseSteps data).take k) r).1)).1 ∧
      (parse r data now).lastUpdatetime = r.lastUpdatetime) := by
  have hpeq := parse_eq_of_length r data now h
  rcases runSteps_firstFail (parseSteps data) r with hok | ⟨k, hk, h1, h2, h3⟩
  · left
    exact ⟨hok, by rw [hpeq, if_pos hok]⟩
  · right
    have heq : parse r data now
        = (((parseSteps data).get ⟨k, hk⟩)
            ((runSteps ((parseSteps data).take k) r).1)).1 := by
      rw [hpeq, h3]
      simp
    refine ⟨k, hk, h1, h2, heq, ?_⟩
    rw [heq, parseSteps_preserve_time data _ (List.get_mem _ _ _) _]
    exact runSteps_preserve (fun st => st.lastUpdatetime) _
      (fun s hs x => parseSteps_preserve_time data s (List.take_subset _ _ hs) x) r

/-- Witness for C7: a 30-byte buffer whose remaining-capacity field starts with a
non-hex byte. -/
theorem parse_aborts_frame_only_witness :
    (badFrame30.length = 128 ∨ badFrame30.length = 30) ∧
    (((runSteps (parseSteps badFrame30) (mkSupervoltData 0)).2 = true ∧
      parse (mkSupervoltData 0) badFrame30 7
        = { (runSteps (parseSteps badFrame30) (mkSupervoltData 0)).1 with
              lastUpdatetime := 7 }) ∨
    (∃ k, ∃ hk : k < (parseSteps badFrame30).length,
      (runSteps ((parseSteps badFrame30).take k) (mkSupervoltData 0)).2 = true ∧
      (((parseSteps badFrame30).get ⟨k, hk⟩)
          ((runSteps ((parseSteps badFrame30).take k) (mkSupervoltData 0)).1)).2 = false ∧
      parse (mkSupervoltData 0) badFrame30 7
        = (((parseSteps badFrame30).get ⟨k, hk⟩)
            ((runSteps ((parseSteps badFrame30).take k) (mkSupervoltData 0)).1)).1 ∧
      (parse (mkSupervoltData 0) badFrame30 7).lastUpdatetime
        = (mkSupervoltData 0).lastUpdatetime)) :=
  ⟨Or.inr (by decide),
    parse_aborts_frame_only (mkSupervoltData 0) badFrame30 7 (Or.inr (by decide))⟩

/-! ## The current fields of a fully decoded realtime frame -/

/-- Characterization of the three current fields after a fully successful decode of a
128-byte frame: the two component currents are the decoded hex values over 100, clamped
to 0 above 500, and `loadA` is minus the stored charging current plus the stored
discharging current. -/
theorem parse128_currents_char (r : SupervoltData) (data : List Nat) (now : ℚ)
    (h : data.length = 128) (hok : (runSteps (steps128 data) r).2 = true) :
    ∃ c d : ℤ, pyIntHex (slice data 89 4) = some c ∧ pyIntHex (slice data 93 4) = some d ∧
      (parse r data now).chargingA
        = some (if ((c : ℚ) / 100) > 500 then 0 else (c : ℚ) / 100) ∧
      (parse r data now).dischargingA
        = some (if ((d : ℚ) / 100) > 500 then 0 else (d : ℚ) / 100) ∧
      (parse r data now).loadA
        = some (-(if ((c : ℚ) / 100) > 500 then 0 else (c : ℚ) / 100)
            + (if ((d : ℚ) / 100) > 500 then 0 else (d : ℚ) / 100)) := by
  have hps : parseSteps data = steps128 data := by unfold parseSteps; rw [if_pos h]
  have hpeq := parse_eq_of_length r data now (Or.inl h)
  rw [hps] at hpeq
  rw [steps128_eq_parts] at hok hpeq
  obtain ⟨hpre, happ⟩ :=
    runSteps_append_parts (headerSteps data ++ setTotalV0Step :: cellSteps data) _ r hok
  rw [happ] at hok hpeq
  obtain ⟨hchg, hrest1⟩ := runSteps_cons_parts _ _ _ hok
  rw [hrest1] at hok hpeq
  rcases h89 : pyIntHex (slice data 89 4) with _ | c
  · exact absurd hchg (by rw [show (chargingStep data _) = (_, false) from by
      unfold chargingStep fieldStep; rw [h89]]; simp)
  have hcv : chargingStep data
        ((runSteps (headerSteps data ++ setTotalV0Step :: cellSteps data) r).1)
      = ({ (runSteps (headerSteps data ++ setTotalV0Step :: cellSteps data) r).1 with
            chargingA := some (if ((c : ℚ) / 100) > 500 then 0 else (c : ℚ) / 100) },
         true) := by
    unfold chargingStep fieldStep; rw [h89]
  rw [hcv] at hok hpeq
  obtain ⟨hdis, hrest2⟩ := runSteps_cons_parts _ _ _ hok
  rw [hrest2] at hok hpeq
  rcases h93 : pyIntHex (slice data 93 4) with _ | d
  · exact absurd hdis (by rw [show (dischargingStep data _) = (_, false) from by
      unfold dischargingStep fieldStep; rw [h93]]; simp)
  have hdv : dischargingStep data
        (({ (runSteps (headerSteps data ++ setTotalV0Step :: cellSteps data) r).1 with
            chargingA := some (if ((c : ℚ) / 100) > 500 then 0 else (c : ℚ) / 100) },
          true).1)
      = ({ (runSteps (headerSteps data ++ setTotalV0Step :: cellSteps data) r).1 with
            chargingA := some (if ((c : ℚ) / 100) > 500 then 0 else (c : ℚ) / 100),
            dischargingA := some (if ((d : ℚ) / 100) > 500 then 0 else (d : ℚ) / 100) },
         true) := by
    unfold dischargingStep fieldStep; rw [h93]
  rw [hdv] at hok hpeq
  obtain ⟨hload, hrest3⟩ := runSteps_cons_parts _ _ _ hok
  rw [hrest3] at hok hpeq
  have hl : loadAStep
        (({ (runSteps (headerSteps data ++ setTotalV0Step :: cellSteps data) r).1 with
            chargingA := some (if ((c : ℚ) / 100) > 500 then 0 else (c : ℚ) / 100),
            dischargingA := some (if ((d : ℚ) / 100) > 500 then 0 else (d : ℚ) / 100) },
          true).1)
      = ({ (runSteps (headerSteps data ++ setTotalV0Step :: cellSteps data) r).1 with
            chargingA := some (if ((c : ℚ) / 100) > 500 then 0 else (c : ℚ) / 100),
            dischargingA := some (if ((d : ℚ) / 100) > 500 then 0 else (d : ℚ) / 100),
            loadA := some (-(if ((c : ℚ) / 100) > 500 then 0 else (c : ℚ) / 100)
              + (if ((d : ℚ) / 100) > 500 then 0 else (d : ℚ) / 100)) },
         true) := rfl
  rw [hl] at hok hpeq
  rw [if_pos hok] at hpeq
  have hpres := runSteps_preserve
    (fun st => (st.chargingA, st.dischargingA, st.loadA)) (tailSteps data)
    (tailSteps_preserve_currents data)
    (({ (runSteps (headerSteps data ++ setTotalV0Step :: cellSteps data) r).1 with
        chargingA := some (if ((c : ℚ) / 100) > 500 then 0 else (c : ℚ) / 100),
        dischargingA := some (if ((d : ℚ) / 100) > 500 then 0 else (d : ℚ) / 100),
        loadA := some (-(if ((c : ℚ) / 100) > 500 then 0 else (c : ℚ) / 100)
          + (if ((d : ℚ) / 100) > 500 then 0 else (d : ℚ) / 100)) },
      true).1)
  simp only [Prod.mk.injEq] at hpres
  refine ⟨c, d, rfl, rfl, ?_, ?_, ?_⟩ <;> rw [hpeq]
  · exact hpres.1
  · exact hpres.2.1
  · exact hpres.2.2

/-- Claim C5: for every fully decoded 128-byte realtime frame, the stored charging and
discharging currents are the decoded hex values divided by 100, each replaced by 0 when
it exceeds 500, and the stored pack current is minus the post-clamp charging current
plus the post-clamp discharging current. -/
theorem parse128_pack_current (r : SupervoltData) (data : List Nat) (now : ℚ)
    (h : data.length = 128) (hok : (runSteps (steps128 data) r).2 = true) :
    ∃ c d : ℤ, pyIntHex (slice data 89 4) = some c ∧ pyIntHex (slice data 93 4) = some d ∧
      (parse r data now).chargingA
        = some (if ((c : ℚ) / 100) > 500 then 0 else (c : ℚ) / 100) ∧
      (parse r data now).dischargingA
        = some (if ((d : ℚ) / 100) > 500 then 0 else (d : ℚ) / 100) ∧
      (parse r data now).loadA
        = some (-(if ((c : ℚ) / 100) > 500 then 0 else (c : ℚ) / 100)
            + (if ((d : ℚ) / 100) > 500 then 0 else (d : ℚ) / 100)) :=
  parse128_currents_char r data now h hok

/-- Claim C10: the plausibility clamp is strict — a decoded component current of at most
500 A (in particular exactly 500 A) is stored unchanged, and only decoded values
strictly above 500 A are replaced by 0. -/
theorem parse128_clamp_strict (r : SupervoltData) (data : List Nat) (now : ℚ)
    (h : data.length = 128) (hok : (runSteps (steps128 data) r).2 = true)
    (c d : ℤ) (h89 : pyIntHex (slice data 89 4) = some c)
    (h93 : pyIntHex (slice data 93 4) = some d) :
    (((c : ℚ) / 100 ≤ 500 → (parse r data now).chargingA = some ((c : ℚ) / 100)) ∧
     ((c : ℚ) / 100 > 500 → (parse r data now).chargingA = some 0)) ∧
    (((d : ℚ) / 100 ≤ 500 → (parse r data now).dischargingA = some ((d : ℚ) / 100)) ∧
     ((d : ℚ) / 100 > 500 → (parse r data now).dischargingA = some 0)) := by
  obtain ⟨c2, d2, h89b, h93b, hc, hd, _⟩ := parse128_currents_char r data now h hok
  rw [h89] at h89b
  rw [h93] at h93b
  obtain rfl := Option.some.inj h89b
  obtain rfl := Option.some.inj h93b
  refine ⟨⟨?_, ?_⟩, ?_, ?_⟩
  · intro hle; rw [hc, if_neg (not_lt.mpr hle)]
  · intro hgt; rw [hc, if_pos hgt]
  · intro hle; rw [hd, if_neg (not_lt.mpr hle)]
  · intro hgt; rw [hd, if_pos hgt]

/-! ## The total voltage of a realtime frame -/

/-- Running the cell loop from slot `i` for `m` slots: there is a maximal prefix of `k`
slots that decode; the loop adds exactly their values over 1000 to `totalV`, stops at
the first failing slot, and succeeds exactly when every slot decoded. -/
theorem cellLoop_totalV (data : List Nat) :
    ∀ (m i : Nat) (st : SupervoltData) (tv : ℚ), st.totalV = some tv →
      i + m ≤ st.cellV.length →
      ∃ k, k ≤ m ∧
        (∀ j, j < k → (pyIntHex (slice data (25 + 4 * (i + j)) 4)).isSome = true) ∧
        (k < m → pyIntHex (slice data (25 + 4 * (i + k)) 4) = none) ∧
        ((runSteps ((List.range' i m).map (cellStep data)) st).1).totalV
          = some (tv + ∑ j ∈ Finset.range k,
              (((pyIntHex (slice data (25 + 4 * (i + j)) 4)).getD 0 : ℤ) : ℚ) / 1000) ∧
        ((runSteps ((List.range' i m).map (cellStep data)) st).2 = true ↔ k = m) := by
  intro m
  induction m with
  | zero =>
    intro i st tv htv hlen
    refine ⟨0, le_refl 0, fun j hj => absurd hj (Nat.not_lt_zero j),
      fun hk => absurd hk (Nat.not_lt_zero 0), ?_, by simp [runSteps]⟩
    simp [runSteps, htv]
  | succ m ih =>
    intro i st tv htv hlen
    have hne : st.cellV.isEmpty = false := by
      cases hcl : st.cellV with
      | nil => rw [hcl] at hlen; simp at hlen
      | cons a l => rfl
    rcases hpi : pyIntHex (slice data (25 + 4 * i) 4) with _ | v
    · have hstep : cellStep data i st = (st, false) := by
        simp [cellStep, hne, hpi]
      have hrun : runSteps ((List.range' i (m + 1)).map (cellStep data)) st = (st, false) := by
        rw [List.range'_succ, List.map_cons, runSteps_cons, hstep]
        simp
      refine ⟨0, Nat.zero_le _, fun j hj => absurd hj (Nat.not_lt_zero j),
        fun _ => by simpa using hpi, ?_, ?_⟩
      · rw [hrun]
        simpa using htv
      · rw [hrun]
        simp
    · have hi : i < st.cellV.length := by omega
      have hstep : cellStep data i st
          = ({ st with
                cellV := st.cellV.set i (some ((v : ℚ) / 1000)),
                totalV := some (tv + (v : ℚ) / 1000) }, true) := by
        simp [cellStep, hne, hpi, hi, htv]
      have hrun : runSteps ((List.range' i (m + 1)).map (cellStep data)) st
          = runSteps ((List.range' (i + 1) m).map (cellStep data))
              ({ st with
                  cellV := st.cellV.set i (some ((v : ℚ) / 1000)),
                  totalV := some (tv + (v : ℚ) / 1000) }) := by
        rw [List.range'_succ, List.map_cons, runSteps_cons, hstep]
        simp
      obtain ⟨k, hk, hall, hfail, htot, hiff⟩ := ih (i + 1)
        ({ st with
            cellV := st.cellV.set i (some ((v : ℚ) / 1000)),
            totalV := some (tv + (v : ℚ) / 1000) }) (tv + (v : ℚ) / 1000) rfl
        (by simp only [List.length_set]; omega)
      refine ⟨k + 1, by omega, ?_, ?_, ?_, ?_⟩
      · intro j hj
        cases j with
        | zero => simp only [Nat.add_zero, hpi, Option.isSome_some]
        | succ j =>
          have := hall j (by omega)
          rw [show i + (j + 1) = i + 1 + j from by omega]
          exact this
      · intro hklt
        have := hfail (by omega)
        rw [show i + (k + 1) = i + 1 + k from by omega]
        exact this
      · rw [hrun, htot]
        congr 1
        rw [Finset.sum_range_succ']
        have hsh : ∀ j, j ∈ Finset.range k →
            (((pyIntHex (slice data (25 + 4 * (i + (j + 1))) 4)).getD 0 : ℤ) : ℚ) / 1000
              = (((pyIntHex (slice data (25 + 4 * (i + 1 + j)) 4)).getD 0 : ℤ) : ℚ) / 1000 := by
          intro j _
          rw [show i + (j + 1) = i + 1 + j from by omega]
        rw [Finset.sum_congr rfl hsh]
        simp only [Nat.add_zero, hpi, Option.getD_some]
        ring
      · rw [hrun, hiff]
        omega

/-- Claim C6: for every 128-byte realtime frame whose header fields decode, and a record
with the constructor's 16 cell slots, `totalV` after decoding is the sum of exactly the
per-cell voltages that decoded successfully — the maximal prefix of the 11 slots, each
decoded value divided by 1000; slots at and after the first decode failure contribute
nothing. -/
theorem parse128_totalV_sum (r : SupervoltData) (data : List Nat) (now : ℚ)
    (h : data.length = 128) (hlen : r.cellV.length = 16)
    (hhdr : (runSteps (headerSteps data) r).2 = true) :
    ∃ k, k ≤ 11 ∧
      (∀ j, j < k → (pyIntHex (slice data (25 + 4 * j) 4)).isSome = true) ∧
      (k < 11 → pyIntHex (slice data (25 + 4 * k) 4) = none) ∧
      (parse r data now).totalV
        = some (∑ j ∈ Finset.range k,
            (((pyIntHex (slice data (25 + 4 * j) 4)).getD 0 : ℤ) : ℚ) / 1000) := by
  have hps : parseSteps data = steps128 data := by unfold parseSteps; rw [if_pos h]
  have hpeq := parse_eq_of_length r data now (Or.inl h)
  rw [hps] at hpeq
  have hto : (parse r data now).totalV = ((runSteps (steps128 data) r).1).totalV := by
    rw [hpeq]
    split <;> rfl
  have hsplit : steps128 data = headerSteps data
      ++ ((setTotalV0Step :: cellSteps data)
          ++ (chargingStep data :: dischargingStep data :: loadAStep :: tailSteps data)) := by
    simp [steps128, List.append_assoc]
  have hc0 : ((runSteps (headerSteps data) r).1).cellV = r.cellV :=
    runSteps_preserve (fun st => st.cellV) _ (headerSteps_preserve_cellV data) r
  have e0 : runSteps (steps128 data) r
      = runSteps ((setTotalV0Step :: cellSteps data)
          ++ (chargingStep data :: dischargingStep data :: loadAStep :: tailSteps data))
          ((runSteps (headerSteps data) r).1) := by
    rw [hsplit, runSteps_append, if_pos hhdr]
  have e1 : runSteps ((setTotalV0Step :: cellSteps data)
          ++ (chargingStep data :: dischargingStep data :: loadAStep :: tailSteps data))
          ((runSteps (headerSteps data) r).1)
      = runSteps (cellSteps data
          ++ (chargingStep data :: dischargingStep data :: loadAStep :: tailSteps data))
          ({ (runSteps (headerSteps data) r).1 with totalV := some 0 }) := by
    rw [List.cons_append, runSteps_cons]
    simp [setTotalV0Step]
  have hcells : cellSteps data = (List.range' 0 11).map (cellStep data) := by
    rw [cellSteps, List.range_eq_range']
  obtain ⟨k, hk, hall, hfail, htot, hiff⟩ := cellLoop_totalV data 11 0
      ({ (runSteps (headerSteps data) r).1 with totalV := some 0 }) 0 rfl
      (by simp only [hc0]; omega)
  rw [← hcells] at htot hiff
  refine ⟨k, hk, ?_, ?_, ?_⟩
  · intro j hj
    have := hall j hj
    rw [Nat.zero_add] at this
    exact this
  · intro hklt
    have := hfail hklt
    rw [Nat.zero_add] at this
    exact this
  · rw [hto, e0, e1, runSteps_append]
    by_cases hck : (runSteps (cellSteps data)
        ({ (runSteps (headerSteps data) r).1 with totalV := some 0 })).2 = true
    · rw [if_pos hck]
      rw [runSteps_preserve (fun st => st.totalV) _ (afterCells_preserve_totalV data) _]
      rw [htot]
      simp only [Nat.zero_add, zero_add]
    · rw [if_neg hck, htot]
      simp only [Nat.zero_add, zero_add]

/-- Witness for C5 on the all-zero realtime frame. -/
theorem parse128_pack_current_witness :
    zeroFrame128.length = 128 ∧
    (runSteps (steps128 zeroFrame128) (mkSupervoltData 0)).2 = true ∧
    (∃ c d : ℤ, pyIntHex (slice zeroFrame128 89 4) = some c ∧
      pyIntHex (slice zeroFrame128 93 4) = some d ∧
      (parse (mkSupervoltData 0) zeroFrame128 5).chargingA
        = some (if ((c : ℚ) / 100) > 500 then 0 else (c : ℚ) / 100) ∧
      (parse (mkSupervoltData 0) zeroFrame128 5).dischargingA
        = some (if ((d : ℚ) / 100) > 500 then 0 else (d : ℚ) / 100) ∧
      (parse (mkSupervoltData 0) zeroFrame128 5).loadA
        = some (-(if ((c : ℚ) / 100) > 500 then 0 else (c : ℚ) / 100)
            + (if ((d : ℚ) / 100) > 500 then 0 else (d : ℚ) / 100))) :=
  ⟨by decide, by decide,
    parse128_pack_current (mkSupervoltData 0) zeroFrame128 5 (by decide) (by decide)⟩

/-- Witness for C10 on a frame whose charging current decodes to exactly 500 A. -/
theorem parse128_clamp_strict_witness :
    chargeFrame128.length = 128 ∧
    (runSteps (steps128 chargeFrame128) (mkSupervoltData 0)).2 = true ∧
    pyIntHex (slice chargeFrame128 89 4) = some 50000 ∧
    pyIntHex (slice chargeFrame128 93 4) = some 0 ∧
    (((((50000 : ℤ) : ℚ) / 100 ≤ 500 →
        (parse (mkSupervoltData 0) chargeFrame128 5).chargingA
          = some (((50000 : ℤ) : ℚ) / 100)) ∧
      (((50000 : ℤ) : ℚ) / 100 > 500 →
        (parse (mkSupervoltData 0) chargeFrame128 5).chargingA = some 0)) ∧
     ((((0 : ℤ) : ℚ) / 100 ≤ 500 →
        (parse (mkSupervoltData 0) chargeFrame128 5).dischargingA
          = some (((0 : ℤ) : ℚ) / 100)) ∧
      (((0 : ℤ) : ℚ) / 100 > 500 →
        (parse (mkSupervoltData 0) chargeFrame128 5).dischargingA = some 0))) :=
  ⟨by decide, by decide, by decide, by decide,
    parse128_clamp_strict (mkSupervoltData 0) chargeFrame128 5 (by decide) (by decide)
      50000 0 (by decide) (by decide)⟩

/-- Witness for C6 on the frame whose only nonzero field is the charging current. -/
theorem parse128_totalV_sum_witness :
    chargeFrame128.length = 128 ∧ (mkSupervoltData 0).cellV.length = 16 ∧
    (runSteps (headerSteps chargeFrame128) (mkSupervoltData 0)).2 = true ∧
    (∃ k, k ≤ 11 ∧
      (∀ j, j < k → (pyIntHex (slice chargeFrame128 (25 + 4 * j) 4)).isSome = true) ∧
      (k < 11 → pyIntHex (slice chargeFrame128 (25 + 4 * k) 4) = none) ∧
      (parse (mkSupervoltData 0) chargeFrame128 5).totalV
        = some (∑ j ∈ Finset.range k,
            (((pyIntHex (slice chargeFrame128 (25 + 4 * j) 4)).getD 0 : ℤ) : ℚ) / 1000)) :=
  ⟨by decide, by decide, by decide,
    parse128_totalV_sum (mkSupervoltData 0) chargeFrame128 5 (by decide) (by decide)
      (by decide)⟩

theorem setPrefixNone_take {γ : Type} (n : Nat) (l : List (Option γ)) (h : n ≤ l.length) :
    (setPrefixNone n l).take n = List.replicate n none := by
  induction n generalizing l with
  | zero => rfl
  | succ n ih =>
    cases l with
    | nil => simp at h
    | cons a rest =>
      simp only [setPrefixNone, List.take_succ_cons, List.replicate]
      rw [ih rest (by simpa using h)]

theorem setPrefixNone_all {γ : Type} (l : List (Option γ)) :
    setPrefixNone l.length l = List.replicate l.length none := by
  induction l with
  | nil => rfl
  | cons a rest ih => simp [setPrefixNone, List.replicate, ih]

/-- With the list lengths every reachable record has (16 cell slots, 4 temperature
slots), `resetValues` runs to completion and clears every telemetry field. -/
theorem resetValues_of_lengths (r : SupervoltData) (hc : r.cellV.length = 16)
    (ht : r.tempC.length = 4) :
    resetValues r =
      { r with
          alarm := none, balanceState := none,
          cellV := setPrefixNone 11 r.cellV,
          chargeNumber := none, chargingA := none, completeAh := none,
          designedAh := none, dischargeNumber := none, dischargingA := none,
          loadA := none, remainingAh := none, soc := none,
          tempC := setPrefixNone 4 r.tempC,
          totalV := none, version := none, workingState := none } := by
  have hc0 : r.cellV.isEmpty = false := by
    cases hcl : r.cellV with
    | nil => rw [hcl] at hc; simp at hc
    | cons a l => rfl
  have ht0 : r.tempC.isEmpty = false := by
    cases htl : r.tempC with
    | nil => rw [htl] at ht; simp at ht
    | cons a l => rfl
  unfold resetValues
  simp [hc0, ht0, hc, ht]

/-- After `resetValues`, the snapshot query yields no data regardless of the clock:
`totalV` has been cleared. -/
theorem getData_resetValues (r : SupervoltData) (hc : r.cellV.length = 16)
    (ht : r.tempC.length = 4) (now : ℚ) : getData (resetValues r) now = none := by
  rw [resetValues_of_lengths r hc ht]
  simp [getData, pyTruthy]

/-- Claim C8: for every record state with the constructor's list shape, `resetValues`
clears every telemetry field of the record to unset, and a snapshot query made
immediately afterwards (with no new frame applied) returns no data.  (The timestamp is
not nullable, and the frame-header scratch attributes `address`/`command`/`length` are
bookkeeping of the decoder rather than telemetry fields; the first 11 cell slots cover
every slot the decoder ever writes.) -/
theorem resetValues_clears (r : SupervoltData) (now : ℚ) (hc : r.cellV.length = 16)
    (ht : r.tempC.length = 4) :
    (resetValues r).totalV = none ∧ (resetValues r).loadA = none ∧
    (resetValues r).chargingA = none ∧ (resetValues r).dischargingA = none ∧
    (resetValues r).soc = none ∧ (resetValues r).remainingAh = none ∧
    (resetValues r).completeAh = none ∧ (resetValues r).designedAh = none ∧
    (resetValues r).workingState = none ∧ (resetValues r).alarm = none ∧
    (resetValues r).balanceState = none ∧ (resetValues r).chargeNumber = none ∧
    (resetValues r).dischargeNumber = none ∧ (resetValues r).version = none ∧
    (resetValues r).cellV.take 11 = List.replicate 11 none ∧
    (resetValues r).tempC = List.replicate 4 none ∧
    getData (resetValues r) now = none := by
  rw [resetValues_of_lengths r hc ht]
  refine ⟨rfl, rfl, rfl, rfl, rfl, rfl, rfl, rfl, rfl, rfl, rfl, rfl, rfl, rfl, ?_, ?_, ?_⟩
  · exact setPrefixNone_take 11 r.cellV (by omega)
  · rw [show (4 : Nat) = r.tempC.length from ht.symm, setPrefixNone_all, ht]
  · rw [← resetValues_of_lengths r hc ht]
    exact getData_resetValues r hc ht now

/-- Witness for C8 at a concrete populated record. -/
theorem resetValues_clears_witness :
    liveRecord.cellV.length = 16 ∧ liveRecord.tempC.length = 4 ∧
    ((resetValues liveRecord).totalV = none ∧ (resetValues liveRecord).loadA = none ∧
     (resetValues liveRecord).chargingA = none ∧
     (resetValues liveRecord).dischargingA = none ∧
     (resetValues liveRecord).soc = none ∧ (resetValues liveRecord).remainingAh = none ∧
     (resetValues liveRecord).completeAh = none ∧
     (resetValues liveRecord).designedAh = none ∧
     (resetValues liveRecord).workingState = none ∧
     (resetValues liveRecord).alarm = none ∧
     (resetValues liveRecord).balanceState = none ∧
     (resetValues liveRecord).chargeNumber = none ∧
     (resetValues liveRecord).dischargeNumber = none ∧
     (resetValues liveRecord).version = none ∧
     (resetValues liveRecord).cellV.take 11 = List.replicate 11 none ∧
     (resetValues liveRecord).tempC = List.replicate 4 none ∧
     getData (resetValues liveRecord) 5 = none) :=
  ⟨by decide, by decide, resetValues_clears liveRecord 5 (by decide) (by decide)⟩

/-- Claim C4: a buffer whose length is neither 128 nor 30 leaves the record — every
field and the timestamp — exactly as it was. -/
theorem parse_unrecognized_length (r : SupervoltData) (data : List Nat) (now : ℚ)
    (h1 : data.length ≠ 128) (h2 : data.length ≠ 30) : parse r data now = r := by
  unfold parse
  by_cases he : data.isEmpty
  · rw [if_pos he]
  · rw [if_neg he, if_neg (by rintro (h | h) <;> [exact h1 h; exact h2 h])]

/-- Witness for C4 at a concrete 1-byte buffer. -/
theorem parse_unrecognized_length_witness :
    [(48 : Nat)].length ≠ 128 ∧ [(48 : Nat)].length ≠ 30 ∧
      parse liveRecord [48] 5 = liveRecord :=
  ⟨by decide, by decide, parse_unrecognized_length liveRecord [48] 5 (by decide) (by decide)⟩

/-- Counterexample to claim C3 as stated: a record whose `totalV` is set (to exactly
`0`) and whose data is fresh still yields no snapshot, because the code tests Python
truthiness (`not self.totalV`), not set-ness. -/
theorem getData_zero_totalV_cex :
    getData zeroVoltRecord 0 = none ∧ zeroVoltRecord.totalV ≠ none ∧
      ¬((0 : ℚ) - zeroVoltRecord.lastUpdatetime > 120) := by
  refine ⟨?_, by simp [zeroVoltRecord, mkSupervoltData], ?_⟩
  · norm_num [getData, pyTruthy, zeroVoltRecord, mkSupervoltData, MAX_TIME_S]
  · norm_num [zeroVoltRecord, mkSupervoltData]

/-- Claim C3 (amended): the snapshot query returns no data exactly when the data is
stale (`now − lastUpdatetime > 120`) or `totalV` is unset **or zero**; otherwise it
returns the value object with total voltage, a delta-voltage field mirroring total
voltage, pack current, state-of-charge, remaining capacity, fixed cell count 4, the
first temperature reading, the first 4 cell-voltage slots and the list of exactly those
four cell-voltage values. -/
theorem getData_char (r : SupervoltData) (now : ℚ) :
    getData r now =
      (if now - r.lastUpdatetime > 120 ∨ r.totalV = none ∨ r.totalV = some 0 then none
       else some
        { voltage := r.totalV
          delta_voltage := r.totalV
          current := r.loadA
          battery_level := r.soc
          cycle_cap := r.remainingAh
          cell_count := 4
          temperature := if r.tempC.isEmpty then none else some (r.tempC.headI)
          cell1 := (r.cellV.get? 0).getD none
          cell2 := (r.cellV.get? 1).getD none
          cell3 := (r.cellV.get? 2).getD none
          cell4 := (r.cellV.get? 3).getD none
          cell_voltages := [(r.cellV.get? 0).getD none, (r.cellV.get? 1).getD none,
                            (r.cellV.get? 2).getD none, (r.cellV.get? 3).getD none] }) := by
  unfold getData
  have hiff : (now - r.lastUpdatetime > MAX_TIME_S ∨ ¬ pyTruthy r.totalV = true) ↔
      (now - r.lastUpdatetime > 120 ∨ r.totalV = none ∨ r.totalV = some 0) := by
    unfold MAX_TIME_S pyTruthy
    rcases r.totalV with _ | q
    · simp
    · simp [Option.some.injEq]
  rw [if_congr hiff rfl rfl]

/-- Claim C9: the capability matcher scans the driver enumeration in declaration order
and returns the first type whose static predicate accepts the advertisement, or `none`
when no type does; in particular, of two matching types the earlier-declared one wins. -/
theorem device_supported_first_match {α β : Type} (sup : α → β → Bool) (info : β) :
    (∀ (l1 l2 : List α) (t : α), (∀ u ∈ l1, sup u info = false) → sup t info = true →
        device_supported (l1 ++ t :: l2) sup info = some t) ∧
    (∀ types : List α, (∀ u ∈ types, sup u info = false) →
        device_supported types sup info = none) := by
  constructor
  · intro l1 l2 t h1 h2
    induction l1 with
    | nil =>
      simp only [List.nil_append, device_supported, List.find?_cons, h2]
    | cons a rest ih =>
      have ha : sup a info = false := h1 a (List.mem_cons_self _ _)
      simp only [List.cons_append, device_supported, List.find?_cons, ha] at ih ⊢
      exact ih (fun u hu => h1 u (List.mem_cons_of_mem _ hu))
  · intro types h
    apply List.find?_eq_none.mpr
    intro x hx
    simp [h x hx]

/-- Witness for C9: types `0` and the two copies of `1` in `[0, 1, 1]` are scanned in
order; both `1`s match, the first wins; and a list with no match yields `none`. -/
theorem device_supported_first_match_witness :
    device_supported ([0] ++ 1 :: [1]) (fun n (_ : Unit) => decide (n = 1)) () = some 1 ∧
    device_supported [0] (fun n (_ : Unit) => decide (n = 1)) () = none :=
  ⟨(device_supported_first_match (fun n (_ : Unit) => decide (n = 1)) ()).1 [0] [1] 1
      (by decide) (by decide),
   (device_supported_first_match (fun n (_ : Unit) => decide (n = 1)) ()).2 [0] (by decide)⟩

/-- Claim C2 fails on the code: `BMS.__init__` reads `supervoltDatas` but nothing ever
stores a record into it (the source's own comment says old data is stored so reconnects
can reuse it).  Constructing a driver for `"libatt1"` leaves the registry empty; after
the first instance's record is populated by a capacity frame, a second construction for
the same name still yields a blank fresh record instead of the populated one. -/
theorem supervoltDatas_never_stored :
    (bmsInit supervoltDatas0 "libatt1" 0).1 = supervoltDatas0 ∧
    (parse (bmsInit supervoltDatas0 "libatt1" 0).2 capFrame30 5).remainingAh = some 1 ∧
    (bmsInit (bmsInit supervoltDatas0 "libatt1" 0).1 "libatt1" 9).2 = mkSupervoltData 9 ∧
    (mkSupervoltData 9).remainingAh = none := by
  have hr : (parse (bmsInit supervoltDatas0 "libatt1" 0).2 capFrame30 5).remainingAh
      = some (((10 : ℤ) : ℚ) / 10) := rfl
  refine ⟨rfl, ?_, rfl, rfl⟩
  rw [hr]
  norm_num

/-- Counterexample to claim C1 as stated: in a poll where no notification ever arrives,
`async_update` makes no disconnect attempt (the `disconnect()` call sits after both
waits inside the `try` block, so the timeout jumps past it into `except:`) and does not
return a no-data value — the `assert data is not None` raises out of the method
(`result = none` models that raise). -/
theorem async_update_timeout_cex :
    (async_update (mkSupervoltData 0) timeoutEnv).disconnectAttempted = false ∧
    (async_update (mkSupervoltData 0) timeoutEnv).result = none := by
  constructor
  · rfl
  · show getData (resetValues (mkSupervoltData 0)) 0 = none
    exact getData_resetValues _ (by decide) (by decide) 0

/-- Claim C1 (amended): on every poll in which connect and the first command write
succeed but the device never delivers a notification within the bounded wait, the
record stays reset, no disconnect attempt is made within that poll, and the poll raises
through the no-data assertion instead of returning. -/
theorem async_update_timeout (r : SupervoltData) (env : PollEnv)
    (hc : r.cellV.length = 16) (ht : r.tempC.length = 4)
    (hconn : env.connectOk = true) (hw : env.write1Ok = true) (hn : env.notif1 = none) :
    (async_update r env).result = none ∧
    (async_update r env).disconnectAttempted = false ∧
    (async_update r env).record = resetValues r := by
  have hx : async_update r env =
      { record := resetValues r, disconnectAttempted := false,
        result := getData (resetValues r) env.tEnd } := by
    unfold async_update
    rw [hconn, hw, hn]
    simp
  rw [hx]
  exact ⟨getData_resetValues r hc ht env.tEnd, rfl, rfl⟩

/-- Witness for the amended C1 at a concrete record and environment. -/
theorem async_update_timeout_witness :
    (mkSupervoltData 3).cellV.length = 16 ∧ (mkSupervoltData 3).tempC.length = 4 ∧
    timeoutEnv.connectOk = true ∧ timeoutEnv.write1Ok = true ∧ timeoutEnv.notif1 = none ∧
    ((async_update (mkSupervoltData 3) timeoutEnv).result = none ∧
     (async_update (mkSupervoltData 3) timeoutEnv).disconnectAttempted = false ∧
     (async_update (mkSupervoltData 3) timeoutEnv).record
        = resetValues (mkSupervoltData 3)) :=
  ⟨by decide, by decide, rfl, rfl, rfl,
    async_update_timeout (mkSupervoltData 3) timeoutEnv (by decide) (by decide) rfl rfl rfl⟩

end BmsBle
